/-
Verification of the MAD (Median Absolute Deviation) univariate outlier
detector (pyod/models/mad.py) against its natural-language specification.

The embedding models IEEE-style special values (NaN, +Inf, -Inf) over exact
rationals: a value is either a finite rational or one of the three special
values.  Exact rational arithmetic stands in for double-precision floats;
rounding of individual float operations is outside the model, but all
NaN/Infinity propagation rules, the `np.nan_to_num` replacement policy, the
NaN-ignoring median, the detector's attribute lifecycle (including Python
attribute absence before first assignment) and the error paths are modelled
faithfully from the source.
-/
import Mathlib

/-- Scalar values flowing through the detector: a finite rational or an
IEEE special value. -/
inductive Val : Type
  | num (q : ℚ)
  | nan
  | inf
  | ninf
  deriving DecidableEq, Repr, Inhabited

namespace Val

/-- IEEE-style subtraction (models numpy elementwise `-` on doubles). -/
def sub : Val → Val → Val
  | nan, _ => nan
  | _, nan => nan
  | num a, num b => num (a - b)
  | num _, inf => ninf
  | num _, ninf => inf
  | inf, num _ => inf
  | ninf, num _ => ninf
  | inf, inf => nan
  | inf, ninf => inf
  | ninf, inf => ninf
  | ninf, ninf => nan

/-- IEEE-style addition (used by the even-length median average). -/
def add : Val → Val → Val
  | nan, _ => nan
  | _, nan => nan
  | num a, num b => num (a + b)
  | num _, inf => inf
  | num _, ninf => ninf
  | inf, num _ => inf
  | ninf, num _ => ninf
  | inf, inf => inf
  | inf, ninf => nan
  | ninf, inf => nan
  | ninf, ninf => ninf

/-- IEEE-style multiplication (models numpy elementwise `*`). -/
def mul : Val → Val → Val
  | nan, _ => nan
  | _, nan => nan
  | num a, num b => num (a * b)
  | num a, inf => if a = 0 then nan else if 0 < a then inf else ninf
  | num a, ninf => if a = 0 then nan else if 0 < a then ninf else inf
  | inf, num b => if b = 0 then nan else if 0 < b then inf else ninf
  | ninf, num b => if b = 0 then nan else if 0 < b then ninf else inf
  | inf, inf => inf
  | inf, ninf => ninf
  | ninf, inf => ninf
  | ninf, ninf => inf

/-- IEEE-style division (models numpy elementwise `/`; division of a
nonzero finite value by zero gives a signed infinity, 0/0 gives NaN). -/
def div : Val → Val → Val
  | nan, _ => nan
  | _, nan => nan
  | num a, num b =>
      if b = 0 then (if a = 0 then nan else if 0 < a then inf else ninf)
      else num (a / b)
  | num _, inf => num 0
  | num _, ninf => num 0
  | inf, num b => if b < 0 then ninf else inf
  | ninf, num b => if b < 0 then inf else ninf
  | inf, inf => nan
  | inf, ninf => nan
  | ninf, inf => nan
  | ninf, ninf => nan

/-- IEEE-style absolute value (models `np.abs`). -/
def abs : Val → Val
  | nan => nan
  | inf => inf
  | ninf => inf
  | num a => num |a|

/-- Test for NaN. -/
def isNan : Val → Bool
  | nan => true
  | _ => false

/-- Total comparison used for sorting non-NaN values: -Inf below all finite
values, +Inf above (NaNs are removed before sorting by `nanmedian`). -/
def le : Val → Val → Bool
  | _, nan => true
  | nan, _ => false
  | ninf, _ => true
  | _, ninf => false
  | _, inf => true
  | inf, _ => false
  | num a, num b => decide (a ≤ b)

end Val

/-- Insert into a sorted list (ascending with respect to `Val.le`). -/
def insertVal (x : Val) : List Val → List Val
  | [] => [x]
  | y :: ys => if Val.le x y then x :: y :: ys else y :: insertVal x ys

/-- Sort a list of values ascending with respect to `Val.le`.  `Val.le` is
antisymmetric on NaN-free lists, so this produces the same sorted order as
numpy's sort, which is all `nanmedian` needs. -/
def sortVals : List Val → List Val
  | [] => []
  | x :: xs => insertVal x (sortVals xs)

/-- NaN-ignoring median (models `np.nanmedian` on a 1-D/column array):
drop NaNs, sort the rest and take the middle element, averaging the two
middle elements when the count is even; all values NaN (or an empty array)
yields NaN. -/
def nanmedian (xs : List Val) : Val :=
  let ys := xs.filter (fun v => !(Val.isNan v))
  if ys.isEmpty then Val.nan
  else
    let s := sortVals ys
    let n := s.length
    if n % 2 = 1 then s.getD (n / 2) Val.nan
    else Val.div (Val.add (s.getD (n / 2 - 1) Val.nan) (s.getD (n / 2) Val.nan))
                 (Val.num 2)

/-- Largest finite IEEE double, (2^53 - 1) * 2^971 ≈ 1.7976931348623157e308:
the value `np.nan_to_num` substitutes for +Infinity by default. -/
def floatMax : ℚ := (2 ^ 53 - 1) * 2 ^ 971

/-- Model of `np.nan_to_num` with default arguments: NaN becomes 0,
+Infinity becomes the largest finite double and -Infinity its negation. -/
def nan_to_num : Val → Val
  | Val.nan => Val.num 0
  | Val.inf => Val.num floatMax
  | Val.ninf => Val.num (-floatMax)
  | Val.num q => Val.num q

/-- Modified z-score constant 0.6745 from the source. -/
def mzConst : Val := Val.num (6745 / 10000)

/-- Python-level errors raised by the modelled code paths. -/
inductive PyErr : Type
  | valueError (dims : ℕ)
  | indexError
  | attributeError
  deriving DecidableEq, Repr

/-- Rendered message of the dimensionality `ValueError`, from the source
format string; it reports the actual feature count. -/
def dimMessage (d : ℕ) : String :=
  "MAD algorithm is just for univariate data. Got Data with " ++ toString d
    ++ " Dimensions."

/-- Numeric numpy array: its shape tuple and its flattened data. -/
structure NpArray : Type where
  shape : List ℕ
  data : List Val
  deriving DecidableEq, Repr

/-- Model of `_check_dim` from the source: it evaluates `X.shape[1]` and
raises a `ValueError` reporting the feature count when it differs from 1.
On a 1-D array the shape tuple has length 1, so the very subscript
`X.shape[1]` raises an `IndexError`. -/
def check_dim (X : NpArray) : Except PyErr Unit :=
  match X.shape with
  | _ :: d :: _ =>
      if d ≠ 1 then Except.error (PyErr.valueError d) else Except.ok ()
  | _ => Except.error PyErr.indexError

/-- Modelled from the spec: the external validator `check_array` (sklearn,
not part of this repository) called with `ensure_2d=False` and
`force_all_finite=False` accepts any numeric 1-D or 2-D array, passing
NaN/Infinity entries through unchanged and performing no reshaping.  All
inputs in this model are already numeric arrays, so it is the identity;
rejection of non-numeric input is outside the model. -/
def check_array (X : NpArray) : NpArray := X

/-- A Python attribute holding an optional cached statistic: it is either
absent (never assigned, reading it raises `AttributeError`), `None`, or a
cached value. -/
inductive CacheAttr : Type
  | absent
  | pynone
  | pyval (v : Val)
  deriving DecidableEq, Repr

/-- State of one MAD detector instance.  `threshold` and `contamination`
are set at construction; the trailing-underscore attributes mirror the
Python instance attributes first assigned during fitting/scoring.
(The `_mu`/`_sigma` summary statistics, consumed only by the framework's
`predict_proba` and touched by no claim, are not modelled.) -/
structure MADState : Type where
  threshold : ℚ
  contamination : ℚ
  threshold_ : Option ℚ
  median_ : CacheAttr
  median_diff_ : CacheAttr
  decision_scores_ : Option (List Val)
  labels_ : Option (List ℕ)
  deriving DecidableEq, Repr

namespace MAD

/-- Constructor: `MAD.__init__` stores `threshold` (after a numeric type
check that always passes here since the model's threshold is a rational)
and delegates `contamination` to the base class.  Modelled from the spec
for the base class part: `BaseDetector.__init__` (not in the sources)
stores only `contamination`; no cached statistic is initialised anywhere,
so all instance attributes below start absent. -/
def new (threshold contamination : ℚ) : MADState :=
  { threshold := threshold
    contamination := contamination
    threshold_ := none
    median_ := CacheAttr.absent
    median_diff_ := CacheAttr.absent
    decision_scores_ := none
    labels_ := none }

/-- Model of `MAD._mad`: reshape to a column, lazily compute and cache the
NaN-ignoring median and the NaN-ignoring median of absolute deviations,
then return `nan_to_num(0.6745 * diff / median_diff_)`.  Reading a cache
attribute that was never assigned raises `AttributeError` exactly where
Python would (the conditional expression reads the attribute before any
assignment to it). -/
def _mad (s : MADState) (X : NpArray) : MADState × Except PyErr (List Val) :=
  let obs := X.data
  match s.median_ with
  | CacheAttr.absent => (s, Except.error PyErr.attributeError)
  | mcur =>
    let m := match mcur with
      | CacheAttr.pynone => nanmedian obs
      | CacheAttr.pyval v => v
      | CacheAttr.absent => nanmedian obs
    let s1 := { s with median_ := CacheAttr.pyval m }
    let diff := obs.map (fun x => Val.abs (Val.sub x m))
    match s1.median_diff_ with
    | CacheAttr.absent => (s1, Except.error PyErr.attributeError)
    | mdcur =>
      let md := match mdcur with
        | CacheAttr.pynone => nanmedian diff
        | CacheAttr.pyval v => v
        | CacheAttr.absent => nanmedian diff
      let s2 := { s1 with median_diff_ := CacheAttr.pyval md }
      (s2, Except.ok (diff.map (fun d => nan_to_num (Val.div (Val.mul mzConst d) md))))

/-- Model of `MAD.decision_function`: validate, check dimensionality, then
apply the MAD scoring routine with whatever caches are present. -/
def decision_function (s : MADState) (X : NpArray) :
    MADState × Except PyErr (List Val) :=
  let Xv := check_array X
  match check_dim Xv with
  | Except.error e => (s, Except.error e)
  | Except.ok () => _mad s Xv

/-- Strict `score > threshold` comparison as numpy evaluates it
elementwise on doubles (NaN compares false). -/
def gtThreshold (v : Val) (t : ℚ) : Bool :=
  match v with
  | Val.num q => decide (t < q)
  | Val.inf => true
  | Val.ninf => false
  | Val.nan => false

/-- Model of `MAD._process_decision_scores`: derive the binary labels by
comparing each decision score strictly against the configured `threshold`
(the source compares against `self.threshold`).  The `_mu`/`_sigma`
summary statistics it also sets are outside the modelled state. -/
def _process_decision_scores (s : MADState) : MADState :=
  match s.decision_scores_ with
  | none => s
  | some scores =>
      let lb := scores.map (fun v => if gtThreshold v s.threshold then 1 else 0)
      { s with labels_ := some lb }

/-- Modelled from the spec: the base framework's `_set_n_classes` class
count tracker (not in the sources) records a class count and touches none
of the modelled state. -/
def _set_n_classes (s : MADState) : MADState := s

/-- Model of `MAD.fit`: validate, check dimensionality, record the
threshold, reset both caches to `None`, score the column (which populates
the caches), store the scores and derive the labels.  On failure the
result pairs the state as mutated so far with the raised error. -/
def fit (s : MADState) (X : NpArray) : MADState × Option PyErr :=
  let Xv := check_array X
  match check_dim Xv with
  | Except.error e => (s, some e)
  | Except.ok () =>
    let s1 := { (_set_n_classes s) with
                  threshold_ := some s.threshold
                  median_ := CacheAttr.pynone
                  median_diff_ := CacheAttr.pynone }
    match decision_function s1 Xv with
    | (s2, Except.error e) => (s2, some e)
    | (s2, Except.ok scores) =>
      (_process_decision_scores { s2 with decision_scores_ := some scores }, none)

end MAD

/-- A single-column (n, 1) array holding the given finite rationals. -/
def col (xs : List ℚ) : NpArray :=
  { shape := [xs.length, 1], data := xs.map Val.num }

/-- Fit a fresh detector with the default threshold 3.5 (and default
contamination 0.1) on a single finite-rational column. -/
def fitQ (xs : List ℚ) : MADState :=
  (MAD.fit (MAD.new (7 / 2) (1 / 10)) (col xs)).1

/-- Absolute deviations of each observation from a (cached or computed)
median, as `_mad` computes them. -/
def diffOf (obs : List Val) (m : Val) : List Val :=
  obs.map (fun x => Val.abs (Val.sub x m))

/-- Scores as `_mad` computes them from a (cached or computed) median and
median absolute deviation. -/
def scoresOf (obs : List Val) (m md : Val) : List Val :=
  (diffOf obs m).map (fun d => nan_to_num (Val.div (Val.mul mzConst d) md))

/-- Explicit form of the state a successful `fit` produces. -/
def fitResultOf (s : MADState) (obs : List Val) : MADState :=
  let m := nanmedian obs
  let md := nanmedian (diffOf obs m)
  let scores := scoresOf obs m md
  { s with
      threshold_ := some s.threshold
      median_ := CacheAttr.pyval m
      median_diff_ := CacheAttr.pyval md
      decision_scores_ := some scores
      labels_ := some (scores.map (fun v => if MAD.gtThreshold v s.threshold then 1 else 0)) }

lemma getD_map_of_lt {α β : Type} (f : α → β) (l : List α) (i : ℕ) (d : β)
    (d' : α) (h : i < l.length) : (l.map f).getD i d = f (l.getD i d') := by
  induction l generalizing i with
  | nil => simp at h
  | cons x xs ih =>
    cases i with
    | zero => simp
    | succ j =>
      simp only [List.map_cons, List.getD_cons_succ]
      exact ih j (by simpa using h)

lemma getD_mem_of_lt {α : Type} (l : List α) (i : ℕ) (d : α)
    (h : i < l.length) : l.getD i d ∈ l := by
  induction l generalizing i with
  | nil => simp at h
  | cons x xs ih =>
    cases i with
    | zero => simp
    | succ j =>
      simp only [List.getD_cons_succ]
      exact List.mem_cons_of_mem x (ih j (by simpa using h))

lemma mem_insertVal (x y : Val) (l : List Val) :
    x ∈ insertVal y l ↔ x = y ∨ x ∈ l := by
  induction l with
  | nil => simp [insertVal]
  | cons z zs ih =>
    by_cases h : Val.le y z
    · simp [insertVal, h]
    · simp [insertVal, h, ih]
      tauto

lemma length_insertVal (x : Val) (l : List Val) :
    (insertVal x l).length = l.length + 1 := by
  induction l with
  | nil => simp [insertVal]
  | cons z zs ih =>
    by_cases h : Val.le x z
    · simp [insertVal, h]
    · simp [insertVal, h, ih]

lemma mem_sortVals (x : Val) (l : List Val) : x ∈ sortVals l ↔ x ∈ l := by
  induction l with
  | nil => simp [sortVals]
  | cons z zs ih => simp [sortVals, mem_insertVal, ih]

lemma length_sortVals (l : List Val) : (sortVals l).length = l.length := by
  induction l with
  | nil => simp [sortVals]
  | cons z zs ih => simp [sortVals, length_insertVal, ih]

/-- Values that can appear as absolute deviations or their median:
nonnegative finite numbers, +Infinity or NaN (never a negative number and
never -Infinity). -/
def nonnegish (v : Val) : Bool :=
  match v with
  | Val.num q => decide (0 ≤ q)
  | Val.ninf => false
  | _ => true

/-- A cache attribute is healthy when any value it holds is `nonnegish`;
every state reachable through the public API keeps `median_diff_` healthy. -/
def cacheOK : CacheAttr → Bool
  | CacheAttr.pyval v => nonnegish v
  | _ => true

lemma floatMax_nonneg : (0 : ℚ) ≤ floatMax := by
  unfold floatMax
  positivity

lemma nonnegish_abs (v : Val) : nonnegish (Val.abs v) = true := by
  cases v <;> simp [Val.abs, nonnegish, abs_nonneg]

lemma nonnegish_avg (a b : Val) (ha : nonnegish a = true) (hb : nonnegish b = true) :
    nonnegish (Val.div (Val.add a b) (Val.num 2)) = true := by
  cases a <;> cases b <;>
    simp_all only [nonnegish, Val.add, Val.div, decide_eq_true_eq] <;>
    norm_num
  positivity

lemma nonnegish_nanmedian (xs : List Val)
    (h : ∀ v ∈ xs, nonnegish v = true) : nonnegish (nanmedian xs) = true := by
  unfold nanmedian
  by_cases he : (xs.filter (fun v => !(Val.isNan v))).isEmpty
  · simp [he, nonnegish]
  · simp only [he, if_false]
    have hmem : ∀ v ∈ sortVals (xs.filter (fun v => !(Val.isNan v))),
        nonnegish v = true := by
      intro v hv
      exact h v (List.mem_of_mem_filter ((mem_sortVals v _).mp hv))
    have hlen : 0 < (sortVals (xs.filter (fun v => !(Val.isNan v)))).length := by
      rw [length_sortVals]
      cases hl : xs.filter (fun v => !(Val.isNan v)) with
      | nil => simp [hl] at he
      | cons a l => simp
    set s := sortVals (xs.filter (fun v => !(Val.isNan v))) with hs
    by_cases hodd : s.length % 2 = 1
    · simp only [hodd, if_true]
      exact hmem _ (getD_mem_of_lt s _ Val.nan (Nat.div_lt_self hlen (by norm_num)))
    · simp only [hodd, if_false]
      apply nonnegish_avg
      · exact hmem _ (getD_mem_of_lt s _ Val.nan
          (Nat.lt_of_le_of_lt (Nat.sub_le _ _) (Nat.div_lt_self hlen (by norm_num))))
      · exact hmem _ (getD_mem_of_lt s _ Val.nan (Nat.div_lt_self hlen (by norm_num)))

lemma score_nonneg (d md : Val) (hd : nonnegish d = true) (hmd : nonnegish md = true) :
    ∃ q : ℚ, nan_to_num (Val.div (Val.mul mzConst d) md) = Val.num q ∧ 0 ≤ q := by
  have hc : (0 : ℚ) < 6745 / 10000 := by norm_num
  cases d with
  | nan =>
    cases md <;>
      exact ⟨0, by simp [mzConst, Val.mul, Val.div, nan_to_num], le_refl 0⟩
  | ninf => simp [nonnegish] at hd
  | inf =>
    cases md with
    | num b =>
      have hb : 0 ≤ b := by simpa [nonnegish] using hmd
      refine ⟨floatMax, ?_, floatMax_nonneg⟩
      simp [mzConst, Val.mul, Val.div, nan_to_num, hc, not_lt.mpr hb,
        ne_of_gt hc, not_lt_of_ge hb]
    | nan => exact ⟨0, by simp [mzConst, Val.mul, Val.div, nan_to_num, hc, ne_of_gt hc], le_refl 0⟩
    | inf => exact ⟨0, by simp [mzConst, Val.mul, Val.div, nan_to_num, hc, ne_of_gt hc], le_refl 0⟩
    | ninf => simp [nonnegish] at hmd
  | num a =>
    have ha : 0 ≤ a := by simpa [nonnegish] using hd
    have hca : 0 ≤ 6745 / 10000 * a := by positivity
    cases md with
    | nan => exact ⟨0, by simp [mzConst, Val.mul, Val.div, nan_to_num], le_refl 0⟩
    | inf => exact ⟨0, by simp [mzConst, Val.mul, Val.div, nan_to_num], le_refl 0⟩
    | ninf => simp [nonnegish] at hmd
    | num b =>
      have hb : 0 ≤ b := by simpa [nonnegish] using hmd
      by_cases hb0 : b = 0
      · by_cases ha0 : 6745 / 10000 * a = 0
        · exact ⟨0, by simp [mzConst, Val.mul, Val.div, nan_to_num, hb0, ha0], le_refl 0⟩
        · have : 0 < 6745 / 10000 * a := lt_of_le_of_ne hca (Ne.symm ha0)
          exact ⟨floatMax, by simp [mzConst, Val.mul, Val.div, nan_to_num, hb0, ha0, this],
            floatMax_nonneg⟩
      · exact ⟨6745 / 10000 * a / b, by simp [mzConst, Val.mul, Val.div, nan_to_num, hb0],
          div_nonneg hca hb⟩

lemma _mad_fresh (s : MADState) (X : NpArray)
    (hm : s.median_ = CacheAttr.pynone) (hmd : s.median_diff_ = CacheAttr.pynone) :
    MAD._mad s X =
      ({ s with median_ := CacheAttr.pyval (nanmedian X.data)
                median_diff_ := CacheAttr.pyval (nanmedian (diffOf X.data (nanmedian X.data))) },
       Except.ok (scoresOf X.data (nanmedian X.data)
         (nanmedian (diffOf X.data (nanmedian X.data))))) := by
  rcases s with ⟨t, c, th, me, md, ds, lb⟩
  simp only at hm hmd
  subst hm hmd
  simp [MAD._mad, diffOf, scoresOf]

lemma _mad_cached (s : MADState) (X : NpArray) (m md : Val)
    (hm : s.median_ = CacheAttr.pyval m) (hmd : s.median_diff_ = CacheAttr.pyval md) :
    MAD._mad s X = (s, Except.ok (scoresOf X.data m md)) := by
  rcases s with ⟨t, c, th, me, md_, ds, lb⟩
  simp only at hm hmd
  subst hm hmd
  simp [MAD._mad, diffOf, scoresOf]

lemma _mad_ok_inv (s : MADState) (X : NpArray) (s' : MADState) (scores : List Val)
    (h : MAD._mad s X = (s', Except.ok scores)) :
    ∃ m md, s'.median_ = CacheAttr.pyval m ∧ s'.median_diff_ = CacheAttr.pyval md
      ∧ scores = scoresOf X.data m md
      ∧ (md = nanmedian (diffOf X.data m) ∨ s.median_diff_ = CacheAttr.pyval md) := by
  rcases s with ⟨t, c, th, me, md_, ds, lb⟩
  cases me with
  | absent => simp [MAD._mad] at h
  | pynone =>
    cases md_ with
    | absent => simp [MAD._mad] at h
    | pynone =>
      simp only [MAD._mad] at h
      injection h with hs hsc
      injection hsc with hsc
      subst hs
      exact ⟨nanmedian X.data, nanmedian (diffOf X.data (nanmedian X.data)), rfl, rfl,
        by simp [← hsc, diffOf, scoresOf], Or.inl rfl⟩
    | pyval v =>
      simp only [MAD._mad] at h
      injection h with hs hsc
      injection hsc with hsc
      subst hs
      exact ⟨nanmedian X.data, v, rfl, rfl, by simp [← hsc, diffOf, scoresOf], Or.inr rfl⟩
  | pyval w =>
    cases md_ with
    | absent => simp [MAD._mad] at h
    | pynone =>
      simp only [MAD._mad] at h
      injection h with hs hsc
      injection hsc with hsc
      subst hs
      exact ⟨w, nanmedian (diffOf X.data w), rfl, rfl,
        by simp [← hsc, diffOf, scoresOf], Or.inl rfl⟩
    | pyval v =>
      simp only [MAD._mad] at h
      injection h with hs hsc
      injection hsc with hsc
      subst hs
      exact ⟨w, v, rfl, rfl, by simp [← hsc, diffOf, scoresOf], Or.inr rfl⟩

lemma fit_eq (s : MADState) (X : NpArray) (h : check_dim X = Except.ok ()) :
    MAD.fit s X = (fitResultOf s X.data, none) := by
  have hfresh := _mad_fresh
    { s with threshold_ := some s.threshold
             median_ := CacheAttr.pynone
             median_diff_ := CacheAttr.pynone } X rfl rfl
  simp only [MAD.fit, MAD.decision_function, MAD._set_n_classes, check_array, h, hfresh,
    MAD._process_decision_scores, fitResultOf]

lemma fit_err (s : MADState) (X : NpArray) (s' : MADState) (e : PyErr)
    (h : MAD.fit s X = (s', some e)) :
    s' = s ∧ check_dim X = Except.error e := by
  cases hcd : check_dim X with
  | error e' =>
    simp only [MAD.fit, check_array, hcd] at h
    injection h with h1 h2
    injection h2 with h2
    exact ⟨h1.symm, by simp [hcd, h2]⟩
  | ok u =>
    cases u
    rw [fit_eq s X hcd] at h
    injection h with h1 h2
    simp at h2

lemma insertVal_replicate (k : ℕ) (x : Val) (hx : Val.le x x = true) :
    insertVal x (List.replicate k x) = List.replicate (k + 1) x := by
  cases k with
  | zero => simp [insertVal]
  | succ j => simp [List.replicate_succ, insertVal, hx]

lemma sortVals_replicate (n : ℕ) (x : Val) (hx : Val.le x x = true) :
    sortVals (List.replicate n x) = List.replicate n x := by
  induction n with
  | zero => simp [sortVals]
  | succ k ih =>
    rw [List.replicate_succ, sortVals, ih, insertVal_replicate k x hx,
      List.replicate_succ]

lemma getD_replicate (n i : ℕ) (x d : Val) (h : i < n) :
    (List.replicate n x).getD i d = x := by
  induction n generalizing i with
  | zero => omega
  | succ k ih =>
    cases i with
    | zero => simp [List.replicate_succ]
    | succ j =>
      rw [List.replicate_succ, List.getD_cons_succ]
      exact ih j (by omega)

lemma nanmedian_replicate_num (n : ℕ) (c : ℚ) (h : 1 ≤ n) :
    nanmedian (List.replicate n (Val.num c)) = Val.num c := by
  have hle : Val.le (Val.num c) (Val.num c) = true := by simp [Val.le]
  unfold nanmedian
  rw [List.filter_replicate]
  simp only [Val.isNan, Bool.not_false, if_true]
  rw [sortVals_replicate n (Val.num c) hle]
  have hne : (List.replicate n (Val.num c)).isEmpty = false := by
    cases n with
    | zero => omega
    | succ k => simp [List.replicate_succ]
  rw [hne]
  simp only [Bool.false_eq_true, if_false, List.length_replicate]
  by_cases hodd : n % 2 = 1
  · rw [if_pos hodd, getD_replicate n (n / 2) _ _ (Nat.div_lt_self (by omega) (by norm_num))]
  · rw [if_neg hodd,
      getD_replicate n (n / 2 - 1) _ _
        (lt_of_le_of_lt (Nat.sub_le _ _) (Nat.div_lt_self (by omega) (by norm_num))),
      getD_replicate n (n / 2) _ _ (Nat.div_lt_self (by omega) (by norm_num))]
    show Val.div (Val.num (c + c)) (Val.num 2) = Val.num c
    simp [Val.div]

lemma nan_to_num_is_num (v : Val) : ∃ q : ℚ, nan_to_num v = Val.num q := by
  cases v <;> exact ⟨_, rfl⟩

lemma nonnegish_md_of_diff (obs : List Val) (m : Val) :
    nonnegish (nanmedian (diffOf obs m)) = true := by
  apply nonnegish_nanmedian
  intro v hv
  obtain ⟨x, _, rfl⟩ := List.mem_map.mp hv
  exact nonnegish_abs _

lemma scoresOf_nonneg (obs : List Val) (m md : Val) (hmd : nonnegish md = true) :
    ∀ v ∈ scoresOf obs m md, ∃ q : ℚ, v = Val.num q ∧ 0 ≤ q := by
  intro v hv
  obtain ⟨d, hd, rfl⟩ := List.mem_map.mp hv
  obtain ⟨x, _, rfl⟩ := List.mem_map.mp hd
  obtain ⟨q, heq, hq⟩ := score_nonneg _ md (nonnegish_abs _) hmd
  exact ⟨q, heq, hq⟩

/-- Claim C1: for every single-column numeric input, the fitted score of
observation i equals 0.6745 * |x_i - median| / medianAbsoluteDeviation
(whenever that quotient is defined, i.e. the median absolute deviation is
nonzero), where both statistics are NaN-ignoring medians; and on the column
[1, 2, 3, 4, 5, 100] with default threshold 3.5 the fitted median is 3.5,
the median absolute deviation is 1.5, the scores are exactly
[1349/1200, 1349/2000, 1349/6000, 1349/6000, 1349/2000, 260357/6000]
(within 0.01 of 1.124, 0.674, 0.225, 0.225, 0.674 and 43.40 respectively)
and the labels are [0, 0, 0, 0, 0, 1]. -/
theorem C1_mad_score_formula :
    (∀ (xs : List ℚ) (mq dq : ℚ) (i : ℕ),
        nanmedian (List.map Val.num xs) = Val.num mq →
        nanmedian (diffOf (List.map Val.num xs) (Val.num mq)) = Val.num dq →
        dq ≠ 0 → i < xs.length →
        ∃ l, (fitQ xs).decision_scores_ = some l
          ∧ l.getD i Val.nan = Val.num (6745 / 10000 * |xs.getD i 0 - mq| / dq))
    ∧ ((fitQ [1, 2, 3, 4, 5, 100]).median_ = CacheAttr.pyval (Val.num (7 / 2))
       ∧ (fitQ [1, 2, 3, 4, 5, 100]).median_diff_ = CacheAttr.pyval (Val.num (3 / 2))
       ∧ (fitQ [1, 2, 3, 4, 5, 100]).decision_scores_ =
           some [Val.num (1349 / 1200), Val.num (1349 / 2000), Val.num (1349 / 6000),
                 Val.num (1349 / 6000), Val.num (1349 / 2000), Val.num (260357 / 6000)]
       ∧ |(1349 : ℚ) / 1200 - 1124 / 1000| < 1 / 100
       ∧ |(1349 : ℚ) / 2000 - 674 / 1000| < 1 / 100
       ∧ |(1349 : ℚ) / 6000 - 225 / 1000| < 1 / 100
       ∧ |(260357 : ℚ) / 6000 - 4340 / 100| < 1 / 100
       ∧ (fitQ [1, 2, 3, 4, 5, 100]).labels_ = some [0, 0, 0, 0, 0, 1]) := by
  constructor
  · intro xs mq dq i hm hmd hdq hi
    have hcd : check_dim (col xs) = Except.ok () := by simp [check_dim, col]
    have hdata : (col xs).data = List.map Val.num xs := rfl
    have hfit := fit_eq (MAD.new (7 / 2) (1 / 10)) (col xs) hcd
    refine ⟨scoresOf (List.map Val.num xs) (Val.num mq) (Val.num dq), ?_, ?_⟩
    · show (MAD.fit (MAD.new (7 / 2) (1 / 10)) (col xs)).1.decision_scores_ = _
      rw [hfit]
      simp only [fitResultOf, hdata]
      rw [hm, hmd]
    · have hlen1 : i < (diffOf (List.map Val.num xs) (Val.num mq)).length := by
        simp [diffOf, hi]
      have hlen2 : i < (List.map Val.num xs).length := by simp [hi]
      rw [scoresOf, getD_map_of_lt _ _ i _ Val.nan hlen1, diffOf,
        getD_map_of_lt _ _ i _ (Val.num 0) hlen2,
        getD_map_of_lt _ _ i _ (0 : ℚ) hi]
      simp [Val.sub, Val.abs, Val.mul, Val.div, mzConst, nan_to_num, hdq]
  · refine ⟨?_, ?_, ?_, by norm_num [abs_of_nonneg], by norm_num [abs_of_nonneg],
      by norm_num [abs_of_nonneg], by norm_num [abs_of_nonneg], ?_⟩ <;>
      norm_num [fitQ, MAD.fit, MAD.new, MAD.decision_function, MAD._mad, MAD._set_n_classes,
      MAD._process_decision_scores, MAD.gtThreshold, check_array, check_dim, col, nanmedian,
      sortVals, insertVal, Val.le, Val.isNan, Val.add, Val.div, Val.mul, Val.sub, Val.abs,
      nan_to_num, mzConst, diffOf, scoresOf, abs_of_nonneg]

/-- Claim C1 witness: the general formula applied to the concrete column
[1, 2, 3, 4, 5, 100] at index 5. -/
theorem C1_mad_score_formula_witness :
    ∃ l, (fitQ [1, 2, 3, 4, 5, 100]).decision_scores_ = some l
      ∧ l.getD 5 Val.nan
          = Val.num (6745 / 10000 * |([1, 2, 3, 4, 5, 100] : List ℚ).getD 5 0 - 7 / 2| / (3 / 2)) :=
  C1_mad_score_formula.1 [1, 2, 3, 4, 5, 100] (7 / 2) (3 / 2) 5
    (by norm_num [fitQ, MAD.fit, MAD.new, MAD.decision_function, MAD._mad, MAD._set_n_classes,
      MAD._process_decision_scores, MAD.gtThreshold, check_array, check_dim, col, nanmedian,
      sortVals, insertVal, Val.le, Val.isNan, Val.add, Val.div, Val.mul, Val.sub, Val.abs,
      nan_to_num, mzConst, diffOf, scoresOf, abs_of_nonneg])
    (by norm_num [fitQ, MAD.fit, MAD.new, MAD.decision_function, MAD._mad, MAD._set_n_classes,
      MAD._process_decision_scores, MAD.gtThreshold, check_array, check_dim, col, nanmedian,
      sortVals, insertVal, Val.le, Val.isNan, Val.add, Val.div, Val.mul, Val.sub, Val.abs,
      nan_to_num, mzConst, diffOf, scoresOf, abs_of_nonneg])
    (by norm_num) (by norm_num)

/-- Claim C2: after a successful fit on X, scoring X again on the same
instance returns exactly the stored decision scores and leaves the state
(including both caches) unchanged, and any subsequent scoring call, on any
input, reuses the cached median and median absolute deviation without
recomputing them. -/
theorem C2_refit_reuses_caches :
    ∀ (s s' : MADState) (X Y : NpArray),
      MAD.fit s X = (s', none) →
      ∃ ds, s'.decision_scores_ = some ds
        ∧ MAD.decision_function s' X = (s', Except.ok ds)
        ∧ (MAD.decision_function s' Y).1.median_ = s'.median_
        ∧ (MAD.decision_function s' Y).1.median_diff_ = s'.median_diff_ := by
  intro s s' X Y hfit
  cases hcd : check_dim X with
  | error e => simp [MAD.fit, check_array, hcd] at hfit
  | ok u =>
    cases u
    rw [fit_eq s X hcd] at hfit
    injection hfit with h1 h2
    subst h1
    have hm : (fitResultOf s X.data).median_ = CacheAttr.pyval (nanmedian X.data) := by
      simp [fitResultOf]
    have hmd : (fitResultOf s X.data).median_diff_ =
        CacheAttr.pyval (nanmedian (diffOf X.data (nanmedian X.data))) := by
      simp [fitResultOf]
    refine ⟨scoresOf X.data (nanmedian X.data) (nanmedian (diffOf X.data (nanmedian X.data))),
      by simp [fitResultOf], ?_, ?_, ?_⟩
    · simp only [MAD.decision_function, check_array, hcd]
      exact _mad_cached _ X _ _ hm hmd
    · cases hcdY : check_dim Y with
      | error e => simp [MAD.decision_function, check_array, hcdY]
      | ok u =>
        cases u
        simp only [MAD.decision_function, check_array, hcdY]
        rw [_mad_cached _ Y _ _ hm hmd]
    · cases hcdY : check_dim Y with
      | error e => simp [MAD.decision_function, check_array, hcdY]
      | ok u =>
        cases u
        simp only [MAD.decision_function, check_array, hcdY]
        rw [_mad_cached _ Y _ _ hm hmd]

/-- Claim C2 witness: the cache-reuse theorem applied to a fit on the
column [1, 2, 3] followed by scoring [1, 2, 3] and then [4, 4]. -/
theorem C2_refit_reuses_caches_witness :
    ∃ ds, (fitQ [1, 2, 3]).decision_scores_ = some ds
      ∧ MAD.decision_function (fitQ [1, 2, 3]) (col [1, 2, 3]) = (fitQ [1, 2, 3], Except.ok ds)
      ∧ (MAD.decision_function (fitQ [1, 2, 3]) (col [4, 4])).1.median_ = (fitQ [1, 2, 3]).median_
      ∧ (MAD.decision_function (fitQ [1, 2, 3]) (col [4, 4])).1.median_diff_
          = (fitQ [1, 2, 3]).median_diff_ :=
  C2_refit_reuses_caches (MAD.new (7 / 2) (1 / 10)) (fitQ [1, 2, 3]) (col [1, 2, 3])
    (col [4, 4])
    (by norm_num [fitQ, MAD.fit, MAD.new, MAD.decision_function, MAD._mad, MAD._set_n_classes,
      MAD._process_decision_scores, MAD.gtThreshold, check_array, check_dim, col, nanmedian,
      sortVals, insertVal, Val.le, Val.isNan, Val.add, Val.div, Val.mul, Val.sub, Val.abs,
      nan_to_num, mzConst, diffOf, scoresOf, abs_of_nonneg])

/-- Claim C3 counterexample: on the column [1, 1, 1, 5] the median absolute
deviation is 0 and the raw score of the last observation is +Infinity, yet
its returned score is the largest finite double, not 0 — `np.nan_to_num`
only maps NaN to 0, while infinities become the extreme finite doubles. -/
theorem C3_inf_not_replaced_by_zero :
    (fitQ [1, 1, 1, 5]).median_diff_ = CacheAttr.pyval (Val.num 0)
    ∧ Val.div (Val.mul mzConst (Val.abs (Val.sub (Val.num 5) (Val.num 1)))) (Val.num 0)
        = Val.inf
    ∧ (fitQ [1, 1, 1, 5]).decision_scores_
        = some [Val.num 0, Val.num 0, Val.num 0, Val.num floatMax]
    ∧ Val.num floatMax ≠ Val.num 0 := by
  refine ⟨?_, ?_, ?_, ?_⟩ <;>
    norm_num [fitQ, MAD.fit, MAD.new, MAD.decision_function, MAD._mad, MAD._set_n_classes,
      MAD._process_decision_scores, MAD.gtThreshold, check_array, check_dim, col, nanmedian,
      sortVals, insertVal, Val.le, Val.isNan, Val.add, Val.div, Val.mul, Val.sub, Val.abs,
      nan_to_num, mzConst, diffOf, scoresOf, abs_of_nonneg, floatMax]

/-- Claim C3 (amended): the scoring routine returns
`nan_to_num(0.6745 * diff_i / medianAbsoluteDeviation)`, where `nan_to_num`
replaces NaN with 0 but replaces +Infinity with the largest finite double
(2^53 - 1) * 2^971 and -Infinity with its negation; in particular when the
median absolute deviation is 0, observations with zero deviation score 0
(their raw score is NaN) while observations with nonzero deviation score
the largest finite double. -/
theorem C3_nan_to_num_replacement :
    (∀ (s s' : MADState) (X : NpArray) (scores : List Val) (i : ℕ),
        MAD.decision_function s X = (s', Except.ok scores) → i < X.data.length →
        ∃ m md, s'.median_ = CacheAttr.pyval m ∧ s'.median_diff_ = CacheAttr.pyval md
          ∧ scores.getD i Val.nan
              = nan_to_num (Val.div (Val.mul mzConst
                  (Val.abs (Val.sub (X.data.getD i Val.nan) m))) md)
          ∧ (∀ q : ℚ, md = Val.num 0 →
                Val.abs (Val.sub (X.data.getD i Val.nan) m) = Val.num q →
                scores.getD i Val.nan = (if q = 0 then Val.num 0 else Val.num floatMax)))
    ∧ nan_to_num Val.nan = Val.num 0
    ∧ nan_to_num Val.inf = Val.num floatMax
    ∧ nan_to_num Val.ninf = Val.num (-floatMax)
    ∧ (∀ q : ℚ, nan_to_num (Val.num q) = Val.num q) := by
  refine ⟨?_, rfl, rfl, rfl, fun q => rfl⟩
  intro s s' X scores i hdf hi
  cases hcd : check_dim X with
  | error e => simp [MAD.decision_function, check_array, hcd] at hdf
  | ok u =>
    cases u
    simp only [MAD.decision_function, check_array, hcd] at hdf
    obtain ⟨m, md, hm, hmd, hsc, _⟩ := _mad_ok_inv s X s' scores hdf
    subst hsc
    have h1 : i < (diffOf X.data m).length := by simp [diffOf, hi]
    have hgd : (scoresOf X.data m md).getD i Val.nan
        = nan_to_num (Val.div (Val.mul mzConst
            (Val.abs (Val.sub (X.data.getD i Val.nan) m))) md) := by
      rw [scoresOf, getD_map_of_lt _ _ i _ Val.nan h1, diffOf,
        getD_map_of_lt _ _ i _ Val.nan hi]
    refine ⟨m, md, hm, hmd, hgd, ?_⟩
    intro q hmd0 habs
    subst hmd0
    rw [hgd, habs]
    have hq : 0 ≤ q := by
      have hn := nonnegish_abs (Val.sub (X.data.getD i Val.nan) m)
      rw [habs] at hn
      simpa [nonnegish] using hn
    by_cases hq0 : q = 0
    · subst hq0
      norm_num [mzConst, Val.mul, Val.div, nan_to_num]
    · have hqpos : 0 < q := lt_of_le_of_ne hq (Ne.symm hq0)
      have hpos : 0 < (6745 : ℚ) / 10000 * q := by positivity
      simp [mzConst, Val.mul, Val.div, nan_to_num, hq0, ne_of_gt hpos, hpos]

/-- Claim C3 witness: the amended replacement behaviour applied to the
column [1, 1, 1, 5] (median absolute deviation 0) at index 3. -/
theorem C3_nan_to_num_replacement_witness :
    ∃ m md,
      (MAD.decision_function
          { MAD.new (7 / 2) (1 / 10) with
              median_ := CacheAttr.pynone, median_diff_ := CacheAttr.pynone }
          (col [1, 1, 1, 5])).1.median_ = CacheAttr.pyval m
      ∧ (MAD.decision_function
          { MAD.new (7 / 2) (1 / 10) with
              median_ := CacheAttr.pynone, median_diff_ := CacheAttr.pynone }
          (col [1, 1, 1, 5])).1.median_diff_ = CacheAttr.pyval md
      ∧ ([Val.num 0, Val.num 0, Val.num 0, Val.num floatMax] : List Val).getD 3 Val.nan
          = nan_to_num (Val.div (Val.mul mzConst
              (Val.abs (Val.sub ((col [1, 1, 1, 5]).data.getD 3 Val.nan) m))) md)
      ∧ (∀ q : ℚ, md = Val.num 0 →
            Val.abs (Val.sub ((col [1, 1, 1, 5]).data.getD 3 Val.nan) m) = Val.num q →
            ([Val.num 0, Val.num 0, Val.num 0, Val.num floatMax] : List Val).getD 3 Val.nan
              = (if q = 0 then Val.num 0 else Val.num floatMax)) :=
  C3_nan_to_num_replacement.1
    { MAD.new (7 / 2) (1 / 10) with
        median_ := CacheAttr.pynone, median_diff_ := CacheAttr.pynone }
    (MAD.decision_function
        { MAD.new (7 / 2) (1 / 10) with
            median_ := CacheAttr.pynone, median_diff_ := CacheAttr.pynone }
        (col [1, 1, 1, 5])).1
    (col [1, 1, 1, 5]) [Val.num 0, Val.num 0, Val.num 0, Val.num floatMax] 3
    (by norm_num [fitQ, MAD.fit, MAD.new, MAD.decision_function, MAD._mad, MAD._set_n_classes,
      MAD._process_decision_scores, MAD.gtThreshold, check_array, check_dim, col, nanmedian,
      sortVals, insertVal, Val.le, Val.isNan, Val.add, Val.div, Val.mul, Val.sub, Val.abs,
      nan_to_num, mzConst, diffOf, scoresOf, abs_of_nonneg, floatMax])
    (by norm_num [col])

/-- Claim C4: contrary to the claim, a flat 1-D numeric sequence is not
accepted — the dimensionality check evaluates `X.shape[1]`, which for a
1-D array raises an `IndexError`, so both `fit` and `decision_function`
fail on every flat input (and leave the state untouched). -/
theorem C4_flat_input_raises_index_error :
    check_dim { shape := [3], data := [Val.num 1, Val.num 2, Val.num 3] }
        = Except.error PyErr.indexError
    ∧ MAD.fit (MAD.new (7 / 2) (1 / 10))
          { shape := [3], data := [Val.num 1, Val.num 2, Val.num 3] }
        = (MAD.new (7 / 2) (1 / 10), some PyErr.indexError)
    ∧ MAD.decision_function (MAD.new (7 / 2) (1 / 10))
          { shape := [3], data := [Val.num 1, Val.num 2, Val.num 3] }
        = (MAD.new (7 / 2) (1 / 10), Except.error PyErr.indexError) := by
  refine ⟨rfl, ?_, ?_⟩ <;> rfl

/-- Claim C5: contrary to the claim, scoring before any fit fails — the
constructor initialises neither cache attribute, so the first read of
`median_` inside the scoring routine raises an `AttributeError` on a
freshly constructed detector. -/
theorem C5_score_before_fit_raises :
    (MAD.new (7 / 2) (1 / 10)).median_ = CacheAttr.absent
    ∧ MAD.decision_function (MAD.new (7 / 2) (1 / 10)) (col [1, 2])
        = (MAD.new (7 / 2) (1 / 10), Except.error PyErr.attributeError) := by
  exact ⟨rfl, rfl⟩

/-- Claim C6: for every two-dimensional input with d ≥ 2 feature columns,
both fit and decision_function raise the dimensionality ValueError
carrying the actual feature count d (whose rendered message contains d),
leaving the state untouched; an input with exactly one feature column
passes the dimensionality check. -/
theorem C6_dimensionality_error :
    (∀ (s : MADState) (n d : ℕ) (data : List Val), 2 ≤ d →
        MAD.fit s { shape := [n, d], data := data } = (s, some (PyErr.valueError d))
        ∧ MAD.decision_function s { shape := [n, d], data := data }
            = (s, Except.error (PyErr.valueError d))
        ∧ ∃ pre post, dimMessage d = pre ++ toString d ++ post)
    ∧ (∀ (n : ℕ) (data : List Val),
        check_dim { shape := [n, 1], data := data } = Except.ok ()) := by
  constructor
  · intro s n d data hd
    have hne : d ≠ 1 := by omega
    have hcd : check_dim { shape := [n, d], data := data }
        = Except.error (PyErr.valueError d) := by
      simp [check_dim, hne]
    exact ⟨by simp [MAD.fit, check_array, hcd],
      by simp [MAD.decision_function, check_array, hcd],
      "MAD algorithm is just for univariate data. Got Data with ", " Dimensions.", rfl⟩
  · intro n data
    simp [check_dim]

/-- Claim C6 witness: the dimensionality theorem applied to a (3, 2) input. -/
theorem C6_dimensionality_error_witness :
    MAD.fit (MAD.new (7 / 2) (1 / 10))
        { shape := [3, 2],
          data := [Val.num 1, Val.num 2, Val.num 3, Val.num 4, Val.num 5, Val.num 6] }
      = (MAD.new (7 / 2) (1 / 10), some (PyErr.valueError 2))
    ∧ MAD.decision_function (MAD.new (7 / 2) (1 / 10))
        { shape := [3, 2],
          data := [Val.num 1, Val.num 2, Val.num 3, Val.num 4, Val.num 5, Val.num 6] }
      = (MAD.new (7 / 2) (1 / 10), Except.error (PyErr.valueError 2))
    ∧ ∃ pre post, dimMessage 2 = pre ++ toString 2 ++ post :=
  C6_dimensionality_error.1 (MAD.new (7 / 2) (1 / 10)) 3 2
    [Val.num 1, Val.num 2, Val.num 3, Val.num 4, Val.num 5, Val.num 6] (by norm_num)

/-- Claim C7: fitting any constant column (n copies of c, n ≥ 1) yields a
cached median absolute deviation of exactly 0 and every decision score
exactly 0 (the raw 0/0 scores are NaN and are forced to 0, never left as
NaN). -/
theorem C7_constant_column_all_zero :
    ∀ (n : ℕ) (c t cont : ℚ), 1 ≤ n →
      ∃ s', MAD.fit (MAD.new t cont) (col (List.replicate n c)) = (s', none)
        ∧ s'.median_diff_ = CacheAttr.pyval (Val.num 0)
        ∧ s'.decision_scores_ = some (List.replicate n (Val.num 0)) := by
  intro n c t cont hn
  have hcd : check_dim (col (List.replicate n c)) = Except.ok () := by
    simp [check_dim, col]
  have hobs : (col (List.replicate n c)).data = List.replicate n (Val.num c) := by
    simp [col]
  have hm := nanmedian_replicate_num n c hn
  have hdiff : diffOf (List.replicate n (Val.num c)) (Val.num c)
      = List.replicate n (Val.num 0) := by
    simp [diffOf, List.map_replicate, Val.sub, Val.abs]
  have hmd := nanmedian_replicate_num n 0 hn
  have hscores : scoresOf (List.replicate n (Val.num c)) (Val.num c) (Val.num 0)
      = List.replicate n (Val.num 0) := by
    rw [scoresOf, hdiff, List.map_replicate]
    norm_num [mzConst, Val.mul, Val.div, nan_to_num]
  refine ⟨fitResultOf (MAD.new t cont) (col (List.replicate n c)).data,
    fit_eq _ _ hcd, ?_, ?_⟩
  · simp only [fitResultOf, hobs, hm, hdiff, hmd]
  · simp only [fitResultOf, hobs, hm, hdiff, hmd, hscores]

/-- Claim C7 witness: the constant-column theorem applied to three copies
of 5 with threshold 3.5. -/
theorem C7_constant_column_all_zero_witness :
    ∃ s', MAD.fit (MAD.new (7 / 2) (1 / 10)) (col (List.replicate 3 (5 : ℚ))) = (s', none)
      ∧ s'.median_diff_ = CacheAttr.pyval (Val.num 0)
      ∧ s'.decision_scores_ = some (List.replicate 3 (Val.num 0)) :=
  C7_constant_column_all_zero 3 5 (7 / 2) (1 / 10) (by norm_num)

/-- Claim C8: after a successful fit, label i is 1 exactly when decision
score i is strictly greater than the configured threshold and 0 otherwise,
in input order (every fitted score is a finite number, and NaN-free
comparison agrees with the rational order); concretely, decision scores
[0.1, 1, 5] against threshold 3.5 give labels [0, 0, 1]. -/
theorem C8_labels_iff_threshold :
    (∀ (s s' : MADState) (X : NpArray),
        MAD.fit s X = (s', none) →
        ∃ scores lb, s'.decision_scores_ = some scores ∧ s'.labels_ = some lb
          ∧ lb.length = scores.length
          ∧ ∀ i, i < scores.length →
              ∃ q : ℚ, scores.getD i Val.nan = Val.num q
                ∧ (lb.getD i 0 = 1 ↔ s.threshold < q)
                ∧ (lb.getD i 0 = 0 ↔ ¬ s.threshold < q))
    ∧ (MAD._process_decision_scores
          { MAD.new (7 / 2) (1 / 10) with
              decision_scores_ := some [Val.num (1 / 10), Val.num 1, Val.num 5] }).labels_
        = some [0, 0, 1] := by
  constructor
  · intro s s' X hfit
    cases hcd : check_dim X with
    | error e => simp [MAD.fit, check_array, hcd] at hfit
    | ok u =>
      cases u
      rw [fit_eq s X hcd] at hfit
      injection hfit with h1 h2
      subst h1
      refine ⟨scoresOf X.data (nanmedian X.data) (nanmedian (diffOf X.data (nanmedian X.data))),
        (scoresOf X.data (nanmedian X.data)
            (nanmedian (diffOf X.data (nanmedian X.data)))).map
          (fun v => if MAD.gtThreshold v s.threshold then 1 else 0),
        by simp [fitResultOf], by simp [fitResultOf], by simp, ?_⟩
      intro i hi
      have hdl : i < (diffOf X.data (nanmedian X.data)).length := by
        have := hi
        simpa [scoresOf] using this
      have hgd : (scoresOf X.data (nanmedian X.data)
            (nanmedian (diffOf X.data (nanmedian X.data)))).getD i Val.nan
          = nan_to_num (Val.div (Val.mul mzConst
              ((diffOf X.data (nanmedian X.data)).getD i Val.nan))
              (nanmedian (diffOf X.data (nanmedian X.data)))) := by
        rw [scoresOf, getD_map_of_lt _ _ i _ Val.nan hdl]
      obtain ⟨q, hq⟩ := nan_to_num_is_num (Val.div (Val.mul mzConst
        ((diffOf X.data (nanmedian X.data)).getD i Val.nan))
        (nanmedian (diffOf X.data (nanmedian X.data))))
      have hlb : ((scoresOf X.data (nanmedian X.data)
            (nanmedian (diffOf X.data (nanmedian X.data)))).map
          (fun v => if MAD.gtThreshold v s.threshold then 1 else 0)).getD i 0
          = if MAD.gtThreshold (Val.num q) s.threshold then 1 else 0 := by
        rw [getD_map_of_lt _ _ i _ Val.nan hi, hgd, hq]
      refine ⟨q, by rw [hgd, hq], ?_, ?_⟩
      · rw [hlb]
        by_cases h : s.threshold < q <;> simp [MAD.gtThreshold, h]
      · rw [hlb]
        by_cases h : s.threshold < q <;> simp [MAD.gtThreshold, h]
  · norm_num [MAD._process_decision_scores, MAD.new, MAD.gtThreshold]

/-- Claim C8 witness: the label theorem applied to a fit on the column
[0, 10]. -/
theorem C8_labels_iff_threshold_witness :
    ∃ scores lb, (fitQ [0, 10]).decision_scores_ = some scores
      ∧ (fitQ [0, 10]).labels_ = some lb
      ∧ lb.length = scores.length
      ∧ ∀ i, i < scores.length →
          ∃ q : ℚ, scores.getD i Val.nan = Val.num q
            ∧ (lb.getD i 0 = 1 ↔ (MAD.new (7 / 2) (1 / 10)).threshold < q)
            ∧ (lb.getD i 0 = 0 ↔ ¬ (MAD.new (7 / 2) (1 / 10)).threshold < q) :=
  C8_labels_iff_threshold.1 (MAD.new (7 / 2) (1 / 10)) (fitQ [0, 10]) (col [0, 10])
    (by norm_num [fitQ, MAD.fit, MAD.new, MAD.decision_function, MAD._mad, MAD._set_n_classes,
      MAD._process_decision_scores, MAD.gtThreshold, check_array, check_dim, col, nanmedian,
      sortVals, insertVal, Val.le, Val.isNan, Val.add, Val.div, Val.mul, Val.sub, Val.abs,
      nan_to_num, mzConst, diffOf, scoresOf, abs_of_nonneg])

/-- Claim C9 counterexample: a fit that fails the dimensionality check does
NOT leave the caches reset to unset — the reset happens after the
dimensionality check, so the previously cached median 3/2 and median
absolute deviation 1/2 from an earlier fit on [1, 2] survive untouched. -/
theorem C9_dim_failure_keeps_prior_caches :
    MAD.fit (fitQ [1, 2])
        { shape := [2, 2], data := [Val.num 1, Val.num 2, Val.num 3, Val.num 4] }
      = (fitQ [1, 2], some (PyErr.valueError 2))
    ∧ (fitQ [1, 2]).median_ = CacheAttr.pyval (Val.num (3 / 2))
    ∧ (fitQ [1, 2]).median_diff_ = CacheAttr.pyval (Val.num (1 / 2))
    ∧ (fitQ [1, 2]).median_ ≠ CacheAttr.pynone
    ∧ (fitQ [1, 2]).median_diff_ ≠ CacheAttr.pynone := by
  refine ⟨?_, ?_, ?_, ?_, ?_⟩ <;>
    norm_num [fitQ, MAD.fit, MAD.new, MAD.decision_function, MAD._mad, MAD._set_n_classes,
      MAD._process_decision_scores, MAD.gtThreshold, check_array, check_dim, col, nanmedian,
      sortVals, insertVal, Val.le, Val.isNan, Val.add, Val.div, Val.mul, Val.sub, Val.abs,
      nan_to_num, mzConst, diffOf, scoresOf, abs_of_nonneg] <;>
    exact fun h => CacheAttr.noConfusion h

/-- Claim C9 (amended): a failing fit mutates no state at all — validation
and dimensionality failures both occur before the cache reset, so every
failed fit returns the prior state untouched (in particular the caches are
left with their prior contents, not reset to unset), and the only failure
source is the dimensionality check. -/
theorem C9_failed_fit_leaves_state_untouched :
    ∀ (s : MADState) (X : NpArray) (s' : MADState) (e : PyErr),
      MAD.fit s X = (s', some e) → s' = s ∧ check_dim X = Except.error e :=
  fun s X s' e h => fit_err s X s' e h

/-- Claim C9 witness: the amended theorem applied to a fresh detector and a
(1, 2) input. -/
theorem C9_failed_fit_leaves_state_untouched_witness :
    (MAD.fit (MAD.new (7 / 2) (1 / 10))
          { shape := [1, 2], data := [Val.num 1, Val.num 2] }).1
        = MAD.new (7 / 2) (1 / 10)
    ∧ check_dim { shape := [1, 2], data := [Val.num 1, Val.num 2] }
        = Except.error (PyErr.valueError 2) :=
  C9_failed_fit_leaves_state_untouched (MAD.new (7 / 2) (1 / 10))
    { shape := [1, 2], data := [Val.num 1, Val.num 2] }
    (MAD.fit (MAD.new (7 / 2) (1 / 10))
      { shape := [1, 2], data := [Val.num 1, Val.num 2] }).1
    (PyErr.valueError 2) rfl

/-- Claim C10: every score the scoring routine returns is a nonnegative
finite number — for any state whose cached median absolute deviation is
healthy (true of a fresh detector and preserved by every scoring call),
every entry of a successful decision_function result is a finite rational
at least 0, and likewise every entry of decision_scores_ after any
successful fit. -/
theorem C10_scores_nonneg_finite :
    (∀ (s : MADState) (X : NpArray) (s' : MADState) (scores : List Val),
        cacheOK s.median_diff_ = true →
        MAD.decision_function s X = (s', Except.ok scores) →
        (∀ v ∈ scores, ∃ q : ℚ, v = Val.num q ∧ 0 ≤ q)
          ∧ cacheOK s'.median_diff_ = true)
    ∧ (∀ (s : MADState) (X : NpArray) (s' : MADState),
        MAD.fit s X = (s', none) →
        ∃ scores, s'.decision_scores_ = some scores
          ∧ (∀ v ∈ scores, ∃ q : ℚ, v = Val.num q ∧ 0 ≤ q)
          ∧ cacheOK s'.median_diff_ = true)
    ∧ (∀ t cont : ℚ, cacheOK (MAD.new t cont).median_diff_ = true) := by
  refine ⟨?_, ?_, fun t cont => rfl⟩
  · intro s X s' scores hOK hdf
    cases hcd : check_dim X with
    | error e => simp [MAD.decision_function, check_array, hcd] at hdf
    | ok u =>
      cases u
      simp only [MAD.decision_function, check_array, hcd] at hdf
      obtain ⟨m, md, hm, hmd, hsc, hsrc⟩ := _mad_ok_inv s X s' scores hdf
      have hmdn : nonnegish md = true := by
        cases hsrc with
        | inl h => rw [h]; exact nonnegish_md_of_diff X.data m
        | inr h => rw [h] at hOK; simpa [cacheOK] using hOK
      subst hsc
      exact ⟨scoresOf_nonneg X.data m md hmdn, by rw [hmd]; simpa [cacheOK] using hmdn⟩
  · intro s X s' hfit
    cases hcd : check_dim X with
    | error e => simp [MAD.fit, check_array, hcd] at hfit
    | ok u =>
      cases u
      rw [fit_eq s X hcd] at hfit
      injection hfit with h1 h2
      subst h1
      refine ⟨scoresOf X.data (nanmedian X.data)
          (nanmedian (diffOf X.data (nanmedian X.data))),
        by simp [fitResultOf],
        scoresOf_nonneg _ _ _ (nonnegish_md_of_diff X.data (nanmedian X.data)), ?_⟩
      simp [fitResultOf, cacheOK, nonnegish_md_of_diff]

/-- Claim C10 witness: the nonnegativity theorem applied to a reset
detector scoring the column [1, 2]. -/
theorem C10_scores_nonneg_finite_witness :
    (∀ v ∈ ([Val.num (1349 / 2000), Val.num (1349 / 2000)] : List Val),
        ∃ q : ℚ, v = Val.num q ∧ 0 ≤ q)
    ∧ cacheOK (MAD.decision_function
        { MAD.new (7 / 2) (1 / 10) with
            median_ := CacheAttr.pynone, median_diff_ := CacheAttr.pynone }
        (col [1, 2])).1.median_diff_ = true :=
  C10_scores_nonneg_finite.1
    { MAD.new (7 / 2) (1 / 10) with
        median_ := CacheAttr.pynone, median_diff_ := CacheAttr.pynone }
    (col [1, 2])
    (MAD.decision_function
      { MAD.new (7 / 2) (1 / 10) with
          median_ := CacheAttr.pynone, median_diff_ := CacheAttr.pynone }
      (col [1, 2])).1
    [Val.num (1349 / 2000), Val.num (1349 / 2000)]
    rfl
    (by norm_num [MAD.new, MAD.decision_function, MAD._mad, check_array, check_dim, col,
      nanmedian, sortVals, insertVal, Val.le, Val.isNan, Val.add, Val.div, Val.mul, Val.sub,
      Val.abs, nan_to_num, mzConst, abs_of_nonneg])
